import Mathlib

/-!
Verification development for the afdver-Bot web backend (Vercel serverless
functions over MongoDB).  The definitions below are a shallow embedding of
the JavaScript handlers:

* the ingest handler (`/api/ingest`): rate limiter `checkRateLimit`,
  URL extraction (`URL_REGEX = /https?:\/\/\S+/gi` plus the trailing
  punctuation trim), identity derivation and the MongoDB upsert loop;
* the links handler (`/api/links`): filter construction, legacy versus
  paginated response selection;
* the stats handler (`/api/stats`): the `active_bots` union count.

Machine integers are modelled as `Int`/`Nat` (JavaScript timestamps are
millisecond integers from `Date.now()`, well inside the exact range of
IEEE doubles, so no overflow modelling is needed).  MongoDB documents are
modelled as association lists of field names to a small BSON value type.
-/

namespace Afdver

/-! ## JavaScript primitives -/

/-- JavaScript whitespace (the regex class `\s`, also used by `String.prototype.trim`):
space, tab, line terminators, vertical tab, form feed, NBSP, and the Unicode
space separators. -/
def jsSpace (c : Char) : Bool :=
  c = ' ' || c = '\t' || c = '\n' || c = '\r' ||
  c.val = 0x0B || c.val = 0x0C || c.val = 0xA0 || c.val = 0x1680 ||
  (0x2000 ≤ c.val && c.val ≤ 0x200A) ||
  c.val = 0x2028 || c.val = 0x2029 || c.val = 0x202F || c.val = 0x205F ||
  c.val = 0x3000 || c.val = 0xFEFF

/-- JavaScript `String.prototype.trim`: strip leading and trailing whitespace. -/
def jsTrim (s : String) : String :=
  String.mk (((s.toList.dropWhile jsSpace).reverse.dropWhile jsSpace).reverse)

/-- Truthiness of an optional string: JavaScript `undefined` and `""` are falsy,
every other string is truthy. -/
def jsTruthy (o : Option String) : Bool :=
  decide (o.getD "" ≠ "")

/-- Split a character list at every occurrence of `sep`
(JavaScript `String.prototype.split` with a single-character separator). -/
def splitCharAux (sep : Char) (cur : List Char) : List Char → List (List Char)
  | [] => [cur.reverse]
  | c :: cs =>
    if c = sep then cur.reverse :: splitCharAux sep [] cs
    else splitCharAux sep (c :: cur) cs

def splitChar (sep : Char) (cs : List Char) : List String :=
  (splitCharAux sep [] cs).map String.mk

/-- `parseInt(s, 10)`: skip leading whitespace, optional sign, then leading
decimal digits; `none` models `NaN`. -/
def parseIntJS (s : String) : Option Int :=
  let cs := s.toList.dropWhile jsSpace
  let (neg, cs) : Bool × List Char :=
    match cs with
    | '-' :: rest => (true, rest)
    | '+' :: rest => (false, rest)
    | rest => (false, rest)
  let digits := cs.takeWhile Char.isDigit
  if digits = [] then none
  else
    let n : Nat := digits.foldl (fun acc c => acc * 10 + (c.toNat - 48)) 0
    some (if neg then -(n : Int) else (n : Int))

/-- First-occurrence deduplication with an accumulator of already-seen values
(the observable content of JavaScript `Array.from(new Set(xs))` and of
`Set.prototype.size`). -/
def dedupAux {α : Type} [DecidableEq α] (seen : List α) : List α → List α
  | [] => []
  | x :: xs =>
    if x ∈ seen then dedupAux seen xs
    else x :: dedupAux (x :: seen) xs

def dedupBy {α : Type} [DecidableEq α] (l : List α) : List α :=
  dedupAux [] l

/-! ## Rate limiter (`checkRateLimit` in `api/ingest.js`)

`rateLimitMap` is the module-global `Map` from bot id to the list of
admission timestamps (milliseconds). -/

abbrev RateMap : Type := List (String × List Int)

def rmFind (m : RateMap) (k : String) : Option (List Int) :=
  match m with
  | [] => none
  | (k', v) :: rest => if k' = k then some v else rmFind rest k

def rmSet (m : RateMap) (k : String) (v : List Int) : RateMap :=
  match m with
  | [] => [(k, v)]
  | (k', v') :: rest => if k' = k then (k, v) :: rest else (k', v') :: rmSet rest k v

/-- Lines 22-24 of the handler file: `if (!rateLimitMap.has(botId)) rateLimitMap.set(botId, [])`. -/
def ensureEntry (m : RateMap) (k : String) : RateMap :=
  match rmFind m k with
  | some _ => m
  | none => rmSet m k []

/-- `checkRateLimit(botId, maxRequests = 100, windowMs = 3600000)`:
prune timestamps with `time > now - windowMs`, deny (without recording)
when the pruned count reaches the quota, otherwise record `now` and allow.
On the deny path the map keeps the caller's previous (unpruned) list. -/
def checkRateLimit (m : RateMap) (botId : String) (maxRequests : Nat)
    (windowMs now : Int) : Bool × RateMap :=
  let m1 := ensureEntry m botId
  let requests := (rmFind m1 botId).getD []
  let validRequests := requests.filter (fun time => decide (now - windowMs < time))
  if maxRequests ≤ validRequests.length then (false, m1)
  else (true, rmSet m1 botId (validRequests ++ [now]))

/-- Run a sequence of admission checks (defaults: quota 100, window one hour)
at the given instants, collecting the decisions. -/
def admitSeq (m : RateMap) (botId : String) : List Int → List Bool × RateMap
  | [] => ([], m)
  | t :: ts =>
    let r := checkRateLimit m botId 100 3600000 t
    let rest := admitSeq r.2 botId ts
    (r.1 :: rest.1, rest.2)

/-! ## URL extraction (`URL_REGEX = /https?:\/\/\S+/gi` and the trim on line 76) -/

/-- Case-insensitive comparison of one character against a lowercase pattern
character (the regex `i` flag on the ASCII pattern `https?://`). -/
def lowEq (c d : Char) : Bool :=
  c.toLower = d

/-- Try to match `https?:\/\/\S+` at the head of the character list
(case-insensitive scheme, then a maximal nonempty run of non-whitespace).
Returns the matched text and the remaining characters after the match. -/
def matchUrlAt (cs : List Char) : Option (List Char × List Char) :=
  match cs with
  | c1 :: c2 :: c3 :: c4 :: rest =>
    if lowEq c1 'h' && lowEq c2 't' && lowEq c3 't' && lowEq c4 'p' then
      match rest with
      | c5 :: ':' :: '/' :: '/' :: tail =>
        if lowEq c5 's' then
          let body := tail.takeWhile (fun c => !jsSpace c)
          if body = [] then none
          else some ([c1, c2, c3, c4, c5, ':', '/', '/'] ++ body,
                     tail.dropWhile (fun c => !jsSpace c))
        else none
      | ':' :: '/' :: '/' :: tail =>
        let body := tail.takeWhile (fun c => !jsSpace c)
        if body = [] then none
        else some ([c1, c2, c3, c4, ':', '/', '/'] ++ body,
                   tail.dropWhile (fun c => !jsSpace c))
      | _ => none
    else none
  | _ => none

/-- Global regex scan: at each position try a match; on success continue after
the match (the `g` flag advances `lastIndex` past it), on failure advance one
character.  Fuel is the remaining text length, which bounds the number of steps. -/
def scanUrlsAux : Nat → List Char → List String
  | 0, _ => []
  | _ + 1, [] => []
  | fuel + 1, c :: rest =>
    match matchUrlAt (c :: rest) with
    | some (m, after) => String.mk m :: scanUrlsAux fuel after
    | none => scanUrlsAux fuel rest

/-- `tweetText.match(URL_REGEX) || []`. -/
def scanUrls (s : String) : List String :=
  scanUrlsAux s.toList.length s.toList

/-- Membership in the trailing punctuation class of `u.replace(/[.,);\]"']+$/g, "")`.
Code points 34 and 39 are the double quote and the apostrophe from the class. -/
def trailPunct (c : Char) : Bool :=
  c = '.' || c = ',' || c = ')' || c = ';' || c = ']' || c.toNat = 34 || c.toNat = 39

/-- `u.replace(/[.,);\]"']+$/g, "")`: strip the maximal trailing run of
characters from the sentence-punctuation set. -/
def trimTrailing (s : String) : String :=
  String.mk ((s.toList.reverse.dropWhile trailPunct).reverse)

/-- Line 76 of the ingest handler: all regex matches, each trimmed. -/
def extractUrls (tweetText : String) : List String :=
  (scanUrls tweetText).map trimTrailing

/-! ## MongoDB documents and `updateOne` with `upsert: true`

Documents are association lists from field names to BSON-like values.  The
arrays stored by this system (`categories`, `matched_keywords`,
`seen_by_bots`) are arrays of strings, so the value type carries string
arrays only. -/

inductive BVal : Type where
  | str (s : String)
  | int (n : Int)
  | time (t : Int)
  | nul
  | arrS (l : List String)
deriving DecidableEq

/-- Truthiness of a BSON value when it lands in JavaScript: `null` and `""`
and `0` are falsy; dates and arrays are objects, hence truthy. -/
def bvTruthy : BVal → Bool
  | .str s => decide (s ≠ "")
  | .int n => decide (n ≠ 0)
  | .time _ => true
  | .nul => false
  | .arrS _ => true

abbrev Doc : Type := List (String × BVal)

def getField (d : Doc) (k : String) : Option BVal :=
  match d with
  | [] => none
  | (k', v) :: rest => if k' = k then some v else getField rest k

def setField (d : Doc) (k : String) (v : BVal) : Doc :=
  match d with
  | [] => [(k, v)]
  | (k', v') :: rest => if k' = k then (k, v) :: rest else (k', v') :: setField rest k v

/-- The update document of an `updateOne` call: the `$setOnInsert`, `$set`
and `$addToSet` operator documents. -/
structure UpdateDoc : Type where
  soi : Doc
  set : Doc
  ats : Doc
deriving DecidableEq

def keysOverlap (a b : Doc) : Bool :=
  a.any (fun p => b.any (fun q => p.1 = q.1))

/-- MongoDB rejects an update document in which two update operators target
the same (or prefix-overlapping) field path, failing the whole command with
error 40, `ConflictingUpdateOperators` ("Updating the path 'x' would create a
conflict at 'x'").  The check is made on the update document itself, before
any matching, so it fires on both the insert and the update path of an
upsert.  With the single-segment field names used by this system, overlap is
name equality. -/
def hasConflictingPaths (u : UpdateDoc) : Bool :=
  keysOverlap u.soi u.set || keysOverlap u.soi u.ats || keysOverlap u.set u.ats

/-- Apply one `$addToSet` entry: append the string to the array field when it
is not yet a member; create a one-element array when the field is absent;
fail on a non-array target (MongoDB `$addToSet` type error). -/
def addToSetOne (d : Doc) (k : String) (v : BVal) : Except String Doc :=
  match v with
  | .str s =>
    match getField d k with
    | some (.arrS l) =>
      .ok (setField d k (.arrS (if l.contains s then l else l ++ [s])))
    | some _ => .error "addToSet-on-non-array"
    | none => .ok (setField d k (.arrS [s]))
  | _ => .error "addToSet-value-not-modelled"

def addToSetAll (d : Doc) (ats : Doc) : Except String Doc :=
  match ats with
  | [] => .ok d
  | (k, v) :: rest =>
    match addToSetOne d k v with
    | .error e => .error e
    | .ok d' => addToSetAll d' rest

/-- Outcome of an `updateOne`: whether a document was upserted
(`result.upsertedId` non-null) and the modified count. -/
structure UpdRes : Type where
  upserted : Bool
  modified : Nat
deriving DecidableEq

def replaceFirst (store : List Doc) (url : String) (newd : Doc) : List Doc :=
  match store with
  | [] => []
  | d :: rest =>
    if getField d "url" = some (.str url) then newd :: rest
    else d :: replaceFirst rest url newd

/-- `col.updateOne({url}, {$setOnInsert, $set, $addToSet}, {upsert: true})`
against the uniquely-keyed `links` collection.  Conflicting operator paths
fail the command; otherwise, an existing document receives `$set` and
`$addToSet`, and a missing one is created from the filter equality plus all
three operators, reported through `upsertedId`.  `modifiedCount` counts an
update only if the document content actually changed. -/
def updateOne (store : List Doc) (url : String) (u : UpdateDoc) :
    Except String (UpdRes × List Doc) :=
  if hasConflictingPaths u then .error "ConflictingUpdateOperators"
  else
    match store.find? (fun d => decide (getField d "url" = some (.str url))) with
    | some d =>
      let d1 := u.set.foldl (fun acc p => setField acc p.1 p.2) d
      match addToSetAll d1 u.ats with
      | .error e => .error e
      | .ok d2 =>
        .ok ({ upserted := false, modified := if d2 = d then 0 else 1 },
             replaceFirst store url d2)
    | none =>
      let base : Doc := [("url", .str url)]
      let d1 := u.soi.foldl (fun acc p => setField acc p.1 p.2) base
      let d2 := u.set.foldl (fun acc p => setField acc p.1 p.2) d1
      match addToSetAll d2 u.ats with
      | .error e => .error e
      | .ok d3 => .ok ({ upserted := true, modified := 0 }, store ++ [d3])

/-! ## The ingest handler (`api/ingest.js`) -/

/-- The JSON body of a `POST /ingest` request.  `created_at` is the parsed
millisecond timestamp of the submission's `created_at` string (`new
Date(body.created_at)`); an absent or empty (falsy) string is `none`.
Malformed date strings are outside the model. -/
structure IngestBody : Type where
  tweet_text : Option String
  tweet_id : Option String
  author_id : Option String
  created_at : Option Int
  severity_score : Option Int
  categories : Option (List String)
  matched_keywords : Option (List String)
  source_account : Option String
  collection_method : Option String
deriving DecidableEq

def emptyBody : IngestBody :=
  ⟨none, none, none, none, none, none, none, none, none⟩

/-- The request data the handler consults: HTTP method, the `authorization`
header, `req.ip`, and the parsed JSON body (`none` when there is no body). -/
structure IngestReq : Type where
  method : String
  authorization : Option String
  ip : Option String
  body : Option IngestBody
deriving DecidableEq

/-- `p.toList` begins `s.toList` (character-list version of `startsWith`,
used so that concrete evaluation and generic proofs stay elementary). -/
def listLeads : List Char → List Char → Bool
  | [], _ => true
  | _ :: _, [] => false
  | a :: as, b :: bs => a = b && listLeads as bs

def strStartsWith (s p : String) : Bool :=
  listLeads p.toList s.toList

def strDrop (s : String) (n : Nat) : String :=
  String.mk (s.toList.drop n)

/-- Line 55: `token.split('.')[0] || req.ip || 'anonymous'`.  The first
`split` field is the characters before the first separator; an empty first
field (token beginning with a dot, or empty token) falls back to the IP, and
a missing or empty IP falls back to `'anonymous'`. -/
def deriveBotId (token : String) (ip : Option String) : String :=
  let first := String.mk (token.toList.takeWhile (fun c => c ≠ '.'))
  if first ≠ "" then first
  else
    match ip with
    | some s => if s ≠ "" then s else "anonymous"
    | none => "anonymous"

/-- Line 63: `(process.env.VALID_TOKENS || '').split(',').filter(t => t.trim())`. -/
def validTokensOf (env : String) : List String :=
  (splitChar ',' env.toList).filter (fun t => decide (jsTrim t ≠ ""))

def optStrVal (o : Option String) : BVal :=
  match o with
  | some s => .str s
  -- an `undefined` object property is serialized as BSON null by the driver
  | none => .nul

/-- The `metadata` object of lines 109-121, in source field order.  Note that
it contains a `created_at` entry (the submission's own timestamp, or null). -/
def metaDoc (body : IngestBody) (tweetText botId : String) (now : Int) : Doc :=
  [("tweet_id", .str (body.tweet_id.getD "")),
   ("author_id", optStrVal body.author_id),
   ("created_at", match body.created_at with | some t => .time t | none => .nul),
   ("severity_score", .int (body.severity_score.getD 0)),
   ("categories", .arrS (body.categories.getD [])),
   ("matched_keywords", .arrS (body.matched_keywords.getD [])),
   ("source_account", optStrVal body.source_account),
   ("collection_method",
     if jsTruthy body.collection_method then .str (body.collection_method.getD "")
     else .str "api_upload"),
   ("tweet_text", .str tweetText),
   ("bot_id", .str botId),
   ("updated_at", .time now)]

/-- The update document of the `updateOne` call on lines 123-137:
`$setOnInsert: {url, created_at: now, first_seen_bot}`, `$set: metadata`,
`$addToSet: {seen_by_bots: botId}`. -/
def ingestUpdate (url : String) (body : IngestBody)
    (tweetText botId : String) (now : Int) : UpdateDoc :=
  { soi := [("url", .str url), ("created_at", .time now), ("first_seen_bot", .str botId)],
    set := metaDoc body tweetText botId now,
    ats := [("seen_by_bots", .str botId)] }

/-- The `for (const url of Array.from(new Set(urls)))` loop: each iteration
issues one `updateOne`; a storage error aborts the loop (the earlier
iterations' writes persist) and surfaces through the handler's catch. -/
def mergeLoop (store : List Doc) (urls : List String) (mk : String → UpdateDoc)
    (ins upd : Nat) : Option (Nat × Nat) × List Doc :=
  match urls with
  | [] => (some (ins, upd), store)
  | u :: us =>
    match updateOne store u (mk u) with
    | .error _ => (none, store)
    | .ok (r, store') =>
      mergeLoop store' us mk
        (ins + if r.upserted then 1 else 0)
        (upd + if r.upserted then 0 else if 0 < r.modified then 1 else 0)

/-- The observable responses of the ingest handler. -/
inductive IngestRes : Type where
  | methodNotAllowed                                    -- 405
  | bearerRequired                                      -- 401, no `Bearer ` header
  | rateLimited                                         -- 429
  | invalidToken                                        -- 401, token not allow-listed
  | missingFields                                       -- 400
  | noUrls                                              -- 200, `inserted: 0, message: "No URLs found"`
  | ok (inserted updated processed_urls : Nat) (bot_id : String)  -- 200 success payload
  | serverError                                         -- 500 via the catch block
deriving DecidableEq

def reqToken (req : IngestReq) : String :=
  strDrop (req.authorization.getD "") 7

def reqBot (req : IngestReq) : String :=
  deriveBotId (reqToken req) req.ip

/-- Stage three of the handler (after method, bearer, rate-limit, token and
field validation): extract URLs, short-circuit on none, else run the merge
loop over the deduplicated URLs; a storage error yields the 500 response with
whatever part of the store was already written. -/
def ingestValidated (rm : RateMap) (store : List Doc) (body : IngestBody)
    (botId : String) (now : Int) : IngestRes × RateMap × List Doc :=
  let tweetText := body.tweet_text.getD ""
  let urls := extractUrls tweetText
  if urls = [] then (.noUrls, rm, store)
  else
    match mergeLoop store (dedupBy urls)
        (fun u => ingestUpdate u body tweetText botId now) 0 0 with
    | (none, store') => (.serverError, rm, store')
    | (some (i, u), store') => (.ok i u urls.length botId, rm, store')

/-- Stage two: rate limit on the derived identity, then the allow-list check,
then required-field validation (`!body.tweet_text || !body.tweet_id`). -/
def ingestAuthed (rm : RateMap) (store : List Doc) (env : String)
    (req : IngestReq) (now : Int) : IngestRes × RateMap × List Doc :=
  let rl := checkRateLimit rm (reqBot req) 100 3600000 now
  if rl.1 then
    if reqToken req ∈ validTokensOf env then
      let body := req.body.getD emptyBody
      if jsTruthy body.tweet_text && jsTruthy body.tweet_id then
        ingestValidated rl.2 store body (reqBot req) now
      else (.missingFields, rl.2, store)
    else (.invalidToken, rl.2, store)
  else (.rateLimited, rl.2, store)

/-- The ingest handler, split into stages mirroring the source's early
returns: method check, bearer check, then `ingestAuthed`.  `env` is the
`VALID_TOKENS` environment string; the model assumes `MONGODB_URI` is
configured (an unconfigured instance throws before the merge loop) and skips
the best-effort `createIndex` calls, which are wrapped in their own
try/catch and have no observable effect here. -/
def ingest (rm : RateMap) (store : List Doc) (env : String)
    (req : IngestReq) (now : Int) : IngestRes × RateMap × List Doc :=
  if req.method = "POST" then
    if strStartsWith (req.authorization.getD "") "Bearer " then
      ingestAuthed rm store env req now
    else (.bearerRequired, rm, store)
  else (.methodNotAllowed, rm, store)

/-! ## The links handler (the enhanced `/api/links` with pagination) -/

/-- The query parameters the links handler reads.  `none` is an absent
parameter; `some ""` is a parameter supplied with an empty value (e.g.
`?page=`), which every truthiness test in the handler treats like absence. -/
structure LinksQuery : Type where
  page : Option String
  limit : Option String
  search : Option String
  severity : Option String
  dateFrom : Option String
  dateTo : Option String
deriving DecidableEq

def emptyQuery : LinksQuery := ⟨none, none, none, none, none, none⟩

def containsSeq (hay needle : List Char) : Bool :=
  match hay with
  | [] => needle.isEmpty
  | _ :: rest => listLeads needle hay || containsSeq rest needle

/-- Case-insensitive substring test: the meaning of the
`{$regex: search.trim(), $options: 'i'}` filter for a metacharacter-free
search string (regex metacharacters in the search are outside the model). -/
def containsCI (hay needle : String) : Bool :=
  containsSeq (hay.toList.map Char.toLower) (needle.toList.map Char.toLower)

/-- Days since the Unix epoch of a civil date (proleptic Gregorian). -/
def daysFromCivil (y m d : Int) : Int :=
  let y' := if m ≤ 2 then y - 1 else y
  let era := (if 0 ≤ y' then y' else y' - 399) / 400
  let yoe := y' - era * 400
  let mp := (m + 9) % 12
  let doy := (153 * mp + 2) / 5 + d - 1
  let doe := yoe * 365 + yoe / 4 - yoe / 100 + doy
  era * 146097 + doe - 719468

def digitsToNat (cs : List Char) : Nat :=
  cs.foldl (fun acc c => acc * 10 + (c.toNat - 48)) 0

/-- Parse a `YYYY-MM-DD` string to the epoch milliseconds of its UTC
midnight, i.e. `new Date(s + "T00:00:00.000Z").getTime()`.  `none` models a
malformed string (an Invalid Date, whose filter behavior is outside the
model). -/
def parseYMD (s : String) : Option Int :=
  match (splitCharAux '-' [] s.toList) with
  | [ys, ms, ds] =>
    if ys ≠ [] && ms ≠ [] && ds ≠ [] &&
       ys.all Char.isDigit && ms.all Char.isDigit && ds.all Char.isDigit then
      some (daysFromCivil (digitsToNat ys) (digitsToNat ms) (digitsToNat ds) * 86400000)
    else none
  | _ => none

/-- The filter built on lines 132-163, as a per-document predicate:
case-insensitive url search, severity buckets on `severity_score`
(an unrecognized non-empty severity adds no constraint, like the switch
without a default), and inclusive `created_at` day bounds. -/
def docMatches (q : LinksQuery) (d : Doc) : Bool :=
  let s := jsTrim (q.search.getD "")
  let searchOk :=
    s = "" ||
      (match getField d "url" with
       | some (.str u) => containsCI u s
       | _ => false)
  let score : Option Int :=
    match getField d "severity_score" with
    | some (.int n) => some n
    | _ => none
  let severityOk :=
    match q.severity.getD "" with
    | "high" => match score with | some n => decide (7 ≤ n) | none => false
    | "medium" => match score with | some n => decide (4 ≤ n && n < 7) | none => false
    | "low" => match score with | some n => decide (n < 4) | none => false
    | _ => true
  let created : Option Int :=
    match getField d "created_at" with
    | some (.time t) => some t
    | _ => none
  let fromOk :=
    if jsTruthy q.dateFrom then
      match parseYMD (q.dateFrom.getD ""), created with
      | some b, some t => decide (b ≤ t)
      | some _, none => false
      | none, _ => true
    else true
  let toOk :=
    if jsTruthy q.dateTo then
      match parseYMD (q.dateTo.getD ""), created with
      | some b, some t => decide (t ≤ b + 86399999)
      | some _, none => false
      | none, _ => true
    else true
  searchOk && severityOk && fromOk && toOk

def numOr (o : Option BVal) : Option Int :=
  match o with
  | some (.time t) => some t
  | some (.int n) => some n
  | _ => none

def optLt (a b : Option Int) : Bool :=
  match a, b with
  | none, none => false
  | none, some _ => true
  | some _, none => false
  | some x, some y => decide (x < y)

/-- Sort key order of `.sort({updated_at: -1, created_at: -1})`: `a` comes
before `b` when its (updated_at, created_at) key is lexicographically
larger; documents missing the fields sort last. -/
def docBefore (a b : Doc) : Bool :=
  let ua := numOr (getField a "updated_at")
  let ub := numOr (getField b "updated_at")
  optLt ub ua ||
    (ua = ub && (optLt (numOr (getField b "created_at")) (numOr (getField a "created_at")) ||
                 numOr (getField a "created_at") = numOr (getField b "created_at")))

def insertSorted (d : Doc) : List Doc → List Doc
  | [] => [d]
  | x :: xs => if docBefore d x then d :: x :: xs else x :: insertSorted d xs

def sortDocs (l : List Doc) : List Doc :=
  l.foldr insertSorted []

/-- The two response shapes of the links handler: the flat legacy list and
the paginated object with its `pagination` metadata. -/
inductive LinksRes : Type where
  | legacy (links : List Doc)
  | paginated (links : List Doc) (currentPage : Int) (totalPages : Nat)
      (totalItems : Nat) (itemsPerPage : Int) (hasNext hasPrev : Bool)
deriving DecidableEq

def isLegacyShape : LinksRes → Bool
  | .legacy _ => true
  | .paginated _ _ _ _ _ _ _ => false

/-- The links handler on a configured instance: parse page/limit with their
defaults and clamps, count the matching documents, and serve either the
legacy flat shape (`!req.query.page && !req.query.limit && totalCount <=
500`, capped at 500 records) or the paginated shape. -/
def linksHandler (store : List Doc) (q : LinksQuery) : LinksRes :=
  let pageNum : Int :=
    max 1 (match parseIntJS (q.page.getD "1") with
           | none => 1
           | some n => if n = 0 then 1 else n)
  let limitNum : Int :=
    min 100 (max 1 (match parseIntJS (q.limit.getD "50") with
                    | none => 50
                    | some n => if n = 0 then 50 else n))
  let matched := store.filter (docMatches q)
  let totalCount := matched.length
  let totalPages : Nat := (totalCount + limitNum.toNat - 1) / limitNum.toNat
  let sorted := sortDocs matched
  if !jsTruthy q.page && !jsTruthy q.limit && decide (totalCount ≤ 500) then
    .legacy (sorted.take 500)
  else
    let skip := ((pageNum - 1) * limitNum).toNat
    .paginated ((sorted.drop skip).take limitNum.toNat)
      pageNum totalPages totalCount limitNum
      (decide (pageNum < (totalPages : Int))) (decide (1 < pageNum))

/-! ## The stats handler (`api/stats.js`) -/

/-- The identity values one document contributes to the `active_bots` count:
its `bot_id` value when truthy (`$addToSet: "$bot_id"` followed by
`if (botId) allBots.add(botId)`), and the truthy elements of its
`seen_by_bots` array (`Array.isArray` guard, then the same truthiness
filter). -/
def docStatIdents (d : Doc) : List BVal :=
  (match getField d "bot_id" with
   | some v => if bvTruthy v then [v] else []
   | none => []) ++
  (match getField d "seen_by_bots" with
   | some (.arrS l) => (l.map BVal.str).filter bvTruthy
   | _ => [])

/-- `activeBots`: the size of the JavaScript `Set` of the collected identity
values (a `Set` holds each distinct value once, so its size is the length of
the first-occurrence deduplication). -/
def statsActiveBots (store : List Doc) : Nat :=
  (dedupBy (store.foldr (fun d acc => docStatIdents d ++ acc) [])).length

/-! ## Definitions taken from the claims' own words, for comparison
with the source-derived definitions above. -/

/-- Claim C4's words: the limiter "discards that identity's stored
timestamps older than now minus the window"; what remains are the
timestamps with `¬ (t < now - window)`. -/
def claimRetained (l : List Int) (now windowMs : Int) : List Int :=
  l.filter (fun t => decide (now - windowMs ≤ t))

/-- Claim C8's words: the union of every record's `bot_id` value and every
element of every record's `seen_by_bots` set, "with null or absent
identities excluded" — so a present non-null value, such as an empty
string, is included. -/
def claimStatedIdents (d : Doc) : List BVal :=
  (match getField d "bot_id" with
   | some v => if v ≠ .nul then [v] else []
   | none => []) ++
  (match getField d "seen_by_bots" with
   | some (.arrS l) => l.map BVal.str
   | _ => [])

def claimStatedActiveBots (store : List Doc) : Nat :=
  (store.foldr (fun d acc => (claimStatedIdents d).toFinset ∪ acc) ∅).card

/-- The amended C8 reading: the same union but with all falsy identities
(null, absent, empty string, zero) excluded, as the handler's truthiness
filter does. -/
def claimTruthyActiveBots (store : List Doc) : Nat :=
  (store.foldr (fun d acc => (docStatIdents d).toFinset ∪ acc) ∅).card

/-! ## Helper lemmas -/

theorem rmFind_rmSet_self (m : RateMap) (k : String) (v : List Int) :
    rmFind (rmSet m k v) k = some v := by
  induction m with
  | nil => simp [rmSet, rmFind]
  | cons p rest ih =>
    by_cases h : p.1 = k
    · simp [rmSet, rmFind, h]
    · simp [rmSet, rmFind, h, ih]

theorem rmFind_ensureEntry (m : RateMap) (k : String) :
    (rmFind (ensureEntry m k)) k = some ((rmFind m k).getD []) := by
  unfold ensureEntry
  cases h : rmFind m k with
  | some l => simp [h]
  | none => simp [rmFind_rmSet_self]

/-- Normal form of `checkRateLimit` with the ensure-entry lookup resolved. -/
theorem checkRateLimit_eq (m : RateMap) (b : String) (mx : Nat) (w now : Int) :
    checkRateLimit m b mx w now =
      (if mx ≤ ((((rmFind m b).getD []).filter (fun t => decide (now - w < t))).length)
       then (false, ensureEntry m b)
       else (true, rmSet (ensureEntry m b) b
             ((((rmFind m b).getD []).filter (fun t => decide (now - w < t))) ++ [now]))) := by
  simp only [checkRateLimit]
  rw [rmFind_ensureEntry]
  simp

/-- Source behavior of `checkRateLimit` on the allow path: the identity's
record becomes the pruned in-window timestamps with `now` appended. -/
theorem checkRateLimit_allow (m : RateMap) (b : String) (mx : Nat) (w now : Int)
    (h : (checkRateLimit m b mx w now).1 = true) :
    rmFind (checkRateLimit m b mx w now).2 b =
      some ((((rmFind m b).getD []).filter (fun t => decide (now - w < t))) ++ [now]) := by
  rw [checkRateLimit_eq] at *
  by_cases hc : mx ≤ ((((rmFind m b).getD []).filter
      (fun t => decide (now - w < t))).length)
  · simp [hc] at h
  · simp [hc, rmFind_rmSet_self]

/-- Source behavior of `checkRateLimit` on the deny path: the identity's
stored timestamps are untouched (in particular nothing is recorded). -/
theorem checkRateLimit_deny (m : RateMap) (b : String) (mx : Nat) (w now : Int)
    (h : (checkRateLimit m b mx w now).1 = false) :
    (rmFind (checkRateLimit m b mx w now).2 b).getD [] = (rmFind m b).getD [] := by
  rw [checkRateLimit_eq] at *
  by_cases hc : mx ≤ ((((rmFind m b).getD []).filter
      (fun t => decide (now - w < t))).length)
  · simp [hc, rmFind_ensureEntry]
  · simp [hc] at h

/-- The decision of `checkRateLimit`: deny exactly when the in-window
timestamps already reach the quota. -/
theorem checkRateLimit_decision (m : RateMap) (b : String) (mx : Nat) (w now : Int) :
    (checkRateLimit m b mx w now).1 = false ↔
      mx ≤ ((((rmFind m b).getD []).filter (fun t => decide (now - w < t))).length) := by
  rw [checkRateLimit_eq]
  by_cases hc : mx ≤ ((((rmFind m b).getD []).filter
      (fun t => decide (now - w < t))).length)
  · simp [hc]
  · simp [hc]

theorem dedupAux_length {α : Type} [DecidableEq α] (l : List α) :
    ∀ seen : List α, (dedupAux seen l).length = (l.toFinset \ seen.toFinset).card := by
  induction l with
  | nil => intro seen; simp [dedupAux]
  | cons x xs ih =>
    intro seen
    by_cases h : x ∈ seen
    · have h1 : insert x xs.toFinset \ seen.toFinset = xs.toFinset \ seen.toFinset :=
        Finset.insert_sdiff_of_mem _ (List.mem_toFinset.mpr h)
      simp only [dedupAux, if_pos h, List.toFinset_cons, h1, ih seen]
    · have hx : x ∉ seen.toFinset := fun hs => h (List.mem_toFinset.mp hs)
      have h3 : insert x xs.toFinset \ seen.toFinset =
          insert x (xs.toFinset \ seen.toFinset) :=
        Finset.insert_sdiff_of_not_mem _ hx
      have h4 : (insert x (xs.toFinset \ seen.toFinset)).card =
          ((xs.toFinset \ seen.toFinset).erase x).card + 1 := by
        by_cases hm : x ∈ xs.toFinset \ seen.toFinset
        · rw [Finset.insert_eq_self.mpr hm]
          exact (Finset.card_erase_add_one hm).symm
        · rw [Finset.card_insert_of_not_mem hm, Finset.erase_eq_of_not_mem hm]
      simp only [dedupAux, if_neg h, List.length_cons, ih (x :: seen),
        List.toFinset_cons, Finset.sdiff_insert, h3, h4]

theorem dedupBy_length {α : Type} [DecidableEq α] (l : List α) :
    (dedupBy l).length = l.toFinset.card := by
  simpa [dedupBy] using dedupAux_length l []

theorem foldr_idents_toFinset (store : List Doc) :
    (store.foldr (fun d acc => docStatIdents d ++ acc) []).toFinset =
      store.foldr (fun d acc => (docStatIdents d).toFinset ∪ acc) ∅ := by
  induction store with
  | nil => simp
  | cons d rest ih => simp [List.toFinset_append, ih]

/-! ## Concrete inputs used by the claim theorems -/

/-- `VALID_TOKENS` with the two registered tokens of the scenarios. -/
def envTokens : String := "alice.t1,bob.t2"

def reqOf (auth : String) (body : IngestBody) : IngestReq :=
  { method := "POST", authorization := some auth, ip := none, body := some body }

/-- A submission whose tweet text holds the claim C6 input. -/
def bodyA : IngestBody :=
  { emptyBody with
    tweet_text := some "see http://x.test/a. and http://x.test/a,",
    tweet_id := some "1" }

def reqAlice : IngestReq := reqOf "Bearer alice.t1" bodyA

def reqBobA : IngestReq := reqOf "Bearer bob.t2" bodyA

/-- A submission with a single fresh URL. -/
def bodyB : IngestBody :=
  { emptyBody with tweet_text := some "go http://x.test/b", tweet_id := some "2" }

def reqAliceB : IngestReq := reqOf "Bearer alice.t1" bodyB

/-- A submission whose text holds the same URL twice. -/
def bodyDup : IngestBody :=
  { emptyBody with
    tweet_text := some "go http://x.test/a and http://x.test/a now",
    tweet_id := some "3" }

def reqAliceDup : IngestReq := reqOf "Bearer alice.t1" bodyDup

/-- A Link record created earlier for `http://x.test/a` (written by the
direct-MongoDB bot path, which is outside this repository's web code). -/
def existingDoc : Doc :=
  [("url", .str "http://x.test/a"), ("created_at", .time 5),
   ("first_seen_bot", .str "alice"), ("bot_id", .str "alice"),
   ("seen_by_bots", .arrS ["alice"]), ("updated_at", .time 5)]

/-- A well-formed POST with a Bearer token that is not allow-listed. -/
def reqBadTok : IngestReq :=
  { method := "POST", authorization := some "Bearer bad.x", ip := none, body := none }

/-- A POST without any Bearer credential. -/
def reqNoBearer : IngestReq :=
  { method := "POST", authorization := none, ip := none, body := none }

/-- A POST with a valid token but no body fields. -/
def reqAliceNoFields : IngestReq := reqOf "Bearer alice.t1" emptyBody

/-! ## Claim theorems -/

/-- C1: the claim says a merge of a URL that already has a Link record
leaves `created_at`/`first_seen_bot` unchanged while the other metadata
fields and `updated_at` take the most recent submission's values.  On the
code this fails: the `metadata` object placed under `$set` itself contains a
`created_at` entry while `$setOnInsert` also targets `created_at`, so the
update document has conflicting operator paths and MongoDB rejects every
such `updateOne`; at this input the handler answers 500 and the stored
record keeps its old `updated_at`/`bot_id` instead of the new submission's
values. -/
theorem c1_merge_conflict :
    ((metaDoc bodyA (bodyA.tweet_text.getD "") "bob" 99).any
        (fun p => decide (p.1 = "created_at")) = true)
  ∧ ((ingestUpdate "http://x.test/a" bodyA (bodyA.tweet_text.getD "") "bob" 99).soi.any
        (fun p => decide (p.1 = "created_at")) = true)
  ∧ hasConflictingPaths
      (ingestUpdate "http://x.test/a" bodyA (bodyA.tweet_text.getD "") "bob" 99) = true
  ∧ (ingest [] [existingDoc] envTokens reqBobA 99).1 = .serverError
  ∧ (ingest [] [existingDoc] envTokens reqBobA 99).2.2 = [existingDoc] := by
  decide

/-- C2: the claim says two identical submissions of a fresh URL from one
identity report `inserted=1, updated=0` then `inserted=0, updated=0`.  On
the code the first submission already fails: its only `updateOne` is
rejected (conflicting operator paths on `created_at`), the handler answers
500, no record is created, and `seen_by_bots` never receives the identity;
the second identical submission fails the same way. -/
theorem c2_identical_submissions :
    (ingest [] [] envTokens reqAliceB 7).1 = .serverError
  ∧ (ingest [] [] envTokens reqAliceB 7).2.2 = []
  ∧ (ingest (ingest [] [] envTokens reqAliceB 7).2.1
      (ingest [] [] envTokens reqAliceB 7).2.2 envTokens reqAliceB 8).1 = .serverError
  ∧ (ingest (ingest [] [] envTokens reqAliceB 7).2.1
      (ingest [] [] envTokens reqAliceB 7).2.2 envTokens reqAliceB 8).2.2 = [] := by
  decide

/-- C3: the claim says that of two merges of the same URL, one wins the
insert and the other observes `updated`, with exactly one record persisted.
Each `updateOne` is a single atomic storage step, so the concurrent
executions are the two serial orders; in both orders both calls are
rejected (conflicting operator paths on `created_at`), both callers get
500, and afterwards no record at all exists for the URL. -/
theorem c3_concurrent_merges :
    (ingest [] [] envTokens reqAlice 1).1 = .serverError
  ∧ (ingest (ingest [] [] envTokens reqAlice 1).2.1
      (ingest [] [] envTokens reqAlice 1).2.2 envTokens reqBobA 2).1 = .serverError
  ∧ (ingest (ingest [] [] envTokens reqAlice 1).2.1
      (ingest [] [] envTokens reqAlice 1).2.2 envTokens reqBobA 2).2.2 = []
  ∧ (ingest [] [] envTokens reqBobA 1).1 = .serverError
  ∧ (ingest (ingest [] [] envTokens reqBobA 1).2.1
      (ingest [] [] envTokens reqBobA 1).2.2 envTokens reqAlice 2).1 = .serverError
  ∧ (ingest (ingest [] [] envTokens reqBobA 1).2.1
      (ingest [] [] envTokens reqBobA 1).2.2 envTokens reqAlice 2).2.2 = [] := by
  decide

/-- C6: the extractor does yield the single URL `http://x.test/a` from the
claimed input (both matches trimmed of their trailing punctuation, then
deduplicated), so exactly one `updateOne` is attempted; but that call is
rejected (conflicting operator paths on `created_at`), so the response is
500 rather than `inserted=1` and nothing is stored. -/
theorem c6_extraction_scenario :
    extractUrls "see http://x.test/a. and http://x.test/a," =
      ["http://x.test/a", "http://x.test/a"]
  ∧ dedupBy (extractUrls "see http://x.test/a. and http://x.test/a,") =
      ["http://x.test/a"]
  ∧ (ingest [] [] envTokens reqAlice 7).1 = .serverError
  ∧ (ingest [] [] envTokens reqAlice 7).2.2 = [] := by
  decide

/-- C9: the success-response expression does report `urls.length`, the
number of trimmed matches before deduplication (2 for a text holding the
same URL twice, against 1 merge iteration); but that response is
unreachable for any URL-bearing submission, because the single `updateOne`
is rejected (conflicting operator paths on `created_at`) and the handler
answers 500 with no `processed_urls` field. -/
theorem c9_processed_urls :
    (extractUrls "go http://x.test/a and http://x.test/a now").length = 2
  ∧ (dedupBy (extractUrls "go http://x.test/a and http://x.test/a now")).length = 1
  ∧ (ingest [] [] envTokens reqAliceDup 7).1 = .serverError := by
  decide

/-- C4 counterexample: the claim prunes only timestamps strictly older than
`now - window`.  With 100 admissions recorded exactly one window ago, the
claim's pruning retains all 100 timestamps, which is at least the quota, so
the claim predicts deny; the code's filter `time > windowStart` drops them
and allows the call. -/
theorem c4_boundary_counterexample :
    (checkRateLimit [("b", List.replicate 100 (0 : Int))] "b" 100 3600000 3600000).1 = true
  ∧ 100 ≤ (claimRetained ((rmFind [("b", List.replicate 100 (0 : Int))] "b").getD [])
      3600000 3600000).length := by
  decide

set_option maxRecDepth 100000 in
/-- C4 (amended): on each call the limiter discards the identity's stored
timestamps at or before `now - window` (keeping only strictly newer ones),
denies without recording when the remaining count reaches the quota of 100,
and otherwise appends `now` and allows; consequently 100 admissions within
a rolling hour succeed, the 101st within that hour is denied, and once the
window has fully elapsed admission succeeds again. -/
theorem c4_sliding_window :
    (∀ (m : RateMap) (b : String) (now : Int),
      ((checkRateLimit m b 100 3600000 now).1 = false ↔
        100 ≤ ((((rmFind m b).getD []).filter
          (fun t => decide (now - 3600000 < t))).length))
      ∧ ((checkRateLimit m b 100 3600000 now).1 = false →
          (rmFind (checkRateLimit m b 100 3600000 now).2 b).getD [] =
            (rmFind m b).getD [])
      ∧ ((checkRateLimit m b 100 3600000 now).1 = true →
          rmFind (checkRateLimit m b 100 3600000 now).2 b =
            some ((((rmFind m b).getD []).filter
              (fun t => decide (now - 3600000 < t))) ++ [now])))
  ∧ (admitSeq [] "bot" ((List.range 100).map (fun n => (n : Int)))).1 =
      List.replicate 100 true
  ∧ (checkRateLimit (admitSeq [] "bot" ((List.range 100).map (fun n => (n : Int)))).2
      "bot" 100 3600000 100).1 = false
  ∧ (checkRateLimit (admitSeq [] "bot" ((List.range 100).map (fun n => (n : Int)))).2
      "bot" 100 3600000 3600100).1 = true := by
  refine ⟨fun m b now => ⟨checkRateLimit_decision m b 100 3600000 now,
    checkRateLimit_deny m b 100 3600000 now,
    checkRateLimit_allow m b 100 3600000 now⟩, by decide, by decide, by decide⟩

/-- C4 witness: a first call for a fresh identity is allowed and records the
instant. -/
theorem c4_witness :
    (checkRateLimit [] "w" 100 3600000 5).1 = true
  ∧ rmFind (checkRateLimit [] "w" 100 3600000 5).2 "w" = some [5] := by
  refine ⟨by decide, ?_⟩
  exact (c4_sliding_window.1 [] "w" 5).2.2 (by decide)

/-- C5 counterexample: a submission rejected for an invalid (non-allow-listed)
Bearer token does change observable state: the derived identity's rate-limit
record gains the attempt's timestamp, because the limiter runs before the
allow-list check. -/
theorem c5_invalid_token_side_effect :
    (ingest [] [] envTokens reqBadTok 7).1 = .invalidToken
  ∧ (ingest [] [] envTokens reqBadTok 7).2.1 = [("bad", [7])]
  ∧ ([("bad", [7])] : RateMap) ≠ ([] : RateMap) := by
  decide

/-- C5 (amended): rejections for a missing Bearer prefix happen before the
limiter and change no state at all; rejections for an invalid token or for
missing `tweet_text`/`tweet_id` are still returned before any storage
access (the store is unchanged), but they happen after the rate-limit
check, which appends the attempt to the derived identity's record. -/
theorem c5_rejection_effects :
    ∀ (rm : RateMap) (store : List Doc) (env : String) (req : IngestReq) (now : Int),
    req.method = "POST" →
    ( (strStartsWith (req.authorization.getD "") "Bearer " = false →
        ingest rm store env req now = (.bearerRequired, rm, store))
    ∧ (strStartsWith (req.authorization.getD "") "Bearer " = true →
        (checkRateLimit rm (reqBot req) 100 3600000 now).1 = true →
        reqToken req ∉ validTokensOf env →
        ingest rm store env req now =
          (.invalidToken, (checkRateLimit rm (reqBot req) 100 3600000 now).2, store)
        ∧ rmFind (checkRateLimit rm (reqBot req) 100 3600000 now).2 (reqBot req) =
            some ((((rmFind rm (reqBot req)).getD []).filter
              (fun t => decide (now - 3600000 < t))) ++ [now]))
    ∧ (strStartsWith (req.authorization.getD "") "Bearer " = true →
        (checkRateLimit rm (reqBot req) 100 3600000 now).1 = true →
        reqToken req ∈ validTokensOf env →
        (jsTruthy (req.body.getD emptyBody).tweet_text &&
          jsTruthy (req.body.getD emptyBody).tweet_id) = false →
        ingest rm store env req now =
          (.missingFields, (checkRateLimit rm (reqBot req) 100 3600000 now).2, store)
        ∧ rmFind (checkRateLimit rm (reqBot req) 100 3600000 now).2 (reqBot req) =
            some ((((rmFind rm (reqBot req)).getD []).filter
              (fun t => decide (now - 3600000 < t))) ++ [now])) ) := by
  intro rm store env req now hm
  refine ⟨?_, ?_, ?_⟩
  · intro hb
    simp [ingest, hm, hb]
  · intro hb hrl htok
    refine ⟨?_, checkRateLimit_allow rm (reqBot req) 100 3600000 now hrl⟩
    simp [ingest, ingestAuthed, hm, hb, hrl, htok]
  · intro hb hrl htok hfields
    refine ⟨?_, checkRateLimit_allow rm (reqBot req) 100 3600000 now hrl⟩
    simp [ingest, ingestAuthed, hm, hb, hrl, htok, hfields]

/-- C5 witness: concrete instances of the three rejection cases. -/
theorem c5_witness :
    ingest [] [] envTokens reqNoBearer 9 = (.bearerRequired, [], [])
  ∧ ingest [] [] envTokens reqBadTok 9 = (.invalidToken, [("bad", [9])], [])
  ∧ ingest [] [] envTokens reqAliceNoFields 9 = (.missingFields, [("alice", [9])], []) := by
  refine ⟨?_, ?_, ?_⟩
  · exact (c5_rejection_effects [] [] envTokens reqNoBearer 9 rfl).1 (by decide)
  · exact ((c5_rejection_effects [] [] envTokens reqBadTok 9 rfl).2.1
      (by decide) (by decide) (by decide)).1
  · exact ((c5_rejection_effects [] [] envTokens reqAliceNoFields 9 rfl).2.2
      (by decide) (by decide) (by decide) (by decide)).1

/-- A read request that supplies a `page` parameter with an empty value
(the query string `?page=`). -/
def qPageEmpty : LinksQuery := { emptyQuery with page := some "" }

/-- C7 counterexample: the claim selects the flat legacy shape exactly when
the caller supplies neither a page nor a limit parameter (and the count is
at most 500); but a request that does supply a page parameter with an empty
value still receives the legacy shape, because the handler tests
truthiness (`!req.query.page`), not presence. -/
theorem c7_empty_param_counterexample :
    isLegacyShape (linksHandler [] qPageEmpty) = true
  ∧ qPageEmpty.page ≠ none := by
  decide

/-- C7 (amended): the flat legacy shape (at most 500 records, no pagination
metadata) is returned exactly when the caller supplies neither a page nor
a limit parameter with a non-empty value and the total matching count is
at most 500; with 501 matching records the same request gets the paginated
shape even without page/limit. -/
theorem c7_legacy_selection :
    ∀ (store : List Doc) (q : LinksQuery),
    (isLegacyShape (linksHandler store q) = true ↔
      (jsTruthy q.page = false ∧ jsTruthy q.limit = false ∧
        (store.filter (docMatches q)).length ≤ 500))
  ∧ (∀ l, linksHandler store q = .legacy l → l.length ≤ 500)
  ∧ ((store.filter (docMatches q)).length = 501 →
      isLegacyShape (linksHandler store q) = false) := by
  intro store q
  have htake : ∀ l, linksHandler store q = .legacy l → l.length ≤ 500 := by
    intro l hleg
    simp only [linksHandler] at hleg
    split at hleg
    · injection hleg with h'
      rw [← h']
      exact List.length_take_le _ _
    · exact absurd hleg (by simp)
  have hiff : isLegacyShape (linksHandler store q) = true ↔
      (jsTruthy q.page = false ∧ jsTruthy q.limit = false ∧
        (store.filter (docMatches q)).length ≤ 500) := by
    simp only [linksHandler]
    split
    next h =>
      simp only [isLegacyShape, true_iff]
      simp only [Bool.and_eq_true, Bool.not_eq_true', decide_eq_true_eq] at h
      exact ⟨h.1.1, h.1.2, h.2⟩
    next h =>
      simp only [isLegacyShape]
      constructor
      · intro hft
        exact absurd hft Bool.false_ne_true
      · intro hK
        exact absurd (by simp [hK.1, hK.2.1, hK.2.2]) h
  refine ⟨hiff, htake, fun h501 => ?_⟩
  cases hS : isLegacyShape (linksHandler store q) with
  | false => rfl
  | true =>
    have := (hiff.mp hS).2.2
    omega

/-- C7 witness: a parameter-less request over an empty store receives the
legacy shape. -/
theorem c7_witness : isLegacyShape (linksHandler [] emptyQuery) = true := by
  exact (c7_legacy_selection [] emptyQuery).1.mpr (by refine ⟨by decide, by decide, by decide⟩)

/-- A record whose `bot_id` is the empty string: a present, non-null
identity value that the handler's truthiness filter drops. -/
def storeEmptyBot : List Doc := [[("url", BVal.str "u"), ("bot_id", BVal.str "")]]

/-- The claim C8 scenario store: identity A created the record, identity B
resubmitted it, so `bot_id = "B"` and `seen_by_bots = {"A", "B"}`. -/
def storeAB : List Doc :=
  [[("url", BVal.str "http://x.test/a"), ("bot_id", BVal.str "B"),
    ("seen_by_bots", BVal.arrS ["A", "B"])]]

/-- C8 counterexample: the claim excludes only null or absent identities
from the `active_bots` union, so a record whose `bot_id` is the (present,
non-null) empty string would count; the handler's `if (botId)` filter
drops every falsy value, so the code reports 0 where the claim's set has
size 1. -/
theorem c8_empty_identity_counterexample :
    statsActiveBots storeEmptyBot = 0
  ∧ claimStatedActiveBots storeEmptyBot = 1 := by
  decide

/-- C8 (amended): `active_bots` equals the size of the union of every
record's `bot_id` value and every element of every record's `seen_by_bots`
array, with falsy identities (null, absent, or empty) excluded; in the
A-then-B scenario the count is 2. -/
theorem c8_active_bots_union :
    (∀ store : List Doc, statsActiveBots store = claimTruthyActiveBots store)
  ∧ statsActiveBots storeAB = 2 := by
  refine ⟨fun store => ?_, by decide⟩
  unfold statsActiveBots claimTruthyActiveBots
  rw [dedupBy_length, foldr_idents_toFinset]

/-- C10: for every Bearer credential whose token part begins with the
separator `'.'`, the substring before the first separator is empty, so the
derived identity falls back to the request IP when one is available and
non-empty, and to the constant `"anonymous"` otherwise; it is never the
empty string.  ingest keys both rate limiting and attribution on this
derived identity (`reqBot`). -/
theorem c10_dot_token_fallback :
    ∀ (token : String) (ip : Option String), token.toList.head? = some '.' →
    deriveBotId token ip ≠ ""
  ∧ ((ip = none ∨ ip = some "") → deriveBotId token ip = "anonymous")
  ∧ (∀ s, ip = some s → s ≠ "" → deriveBotId token ip = s) := by
  intro token ip h
  have hfirst : String.mk (token.toList.takeWhile (fun c => decide (c ≠ '.'))) = "" := by
    cases htl : token.toList with
    | nil => rw [htl] at h; simp at h
    | cons c rest =>
      rw [htl] at h
      simp only [List.head?_cons, Option.some.injEq] at h
      rw [h]
      simp [List.takeWhile]
  have hval : deriveBotId token ip =
      (match ip with
       | some s => if s ≠ "" then s else "anonymous"
       | none => "anonymous") := by
    simp only [deriveBotId, hfirst]
    simp
  rcases ip with _ | s
  · refine ⟨?_, fun _ => by simp [hval], ?_⟩
    · rw [hval]; decide
    · intro s hs
      exact absurd hs (by simp)
  · by_cases hs : s = ""
    · subst hs
      refine ⟨?_, fun _ => by simp [hval], ?_⟩
      · rw [hval]; simp
      · intro s' hs' hne
        rw [Option.some.injEq] at hs'
        exact absurd hs'.symm hne
    · refine ⟨?_, ?_, ?_⟩
      · rw [hval]
        simp only [ne_eq, if_pos hs]
        exact hs
      · intro hcase
        rcases hcase with hcase | hcase
        · exact absurd hcase (by simp)
        · rw [Option.some.injEq] at hcase
          exact absurd hcase hs
      · intro s' hs' _
        rw [Option.some.injEq] at hs'
        rw [hval]
        simp [hs, ← hs']

/-- C10 witness: a token beginning with the separator resolves to the IP
when present and to `"anonymous"` without one. -/
theorem c10_witness :
    deriveBotId ".abc" (some "1.2.3.4") = "1.2.3.4"
  ∧ deriveBotId ".abc" none = "anonymous" := by
  refine ⟨?_, ?_⟩
  · exact (c10_dot_token_fallback ".abc" (some "1.2.3.4") (by decide)).2.2
      "1.2.3.4" rfl (by decide)
  · exact (c10_dot_token_fallback ".abc" none (by decide)).2.1 (Or.inl rfl)

end Afdver
